import Mathlib

/-!
# Robotat telemetry bridge — verification of the spec claims

Shallow embedding of the Robotat repository's telemetry-bridge code:

* `publisher_MQTT_final.py` — the MoCap producer (`_calculate_checksum`,
  `_publish_packet`, `on_rigid_body`);
* `pagina_web/backend/mqtt_bridge/mqtt_client.py` — the broker client
  (`on_message`, `publish_command`, `detected_topics`);
* `pagina_web/backend/mqtt_bridge/consumers.py` — the WebSocket consumer
  (`MqttConsumer.receive`, `MqttConsumer.mqtt_message`, the `SOURCE_MAP` /
  `PACKET_TYPE_MAP` / `PACKET_ID_MAP` tables);
* `pagina_web/backend/interfaz/views.py` — the command-submission API view
  (`enviar_comando`).

Python dictionaries are embedded as insertion-ordered association lists,
Python's `json` module as an executable serializer/parser pair over that
representation, `hashlib.sha256` as an executable SHA-256 over byte lists
(bytes are `Nat` values, words are `Nat` reduced modulo `2 ^ 32`), and
`datetime.utcfromtimestamp(~).strftime("%Y-%m-%d %H:%M:%S")` as an
executable proleptic-Gregorian formatter on integer UNIX timestamps.
-/

namespace Robotat

set_option maxRecDepth 100000

/-! ## JSON values

Embeds the Python objects flowing through the bridge: `None`, `bool`, `int`,
`float`, `str`, `list`, `dict`.  Dictionaries keep insertion order, as Python
dicts do.  Non-integer numbers (`float`) are carried as their `repr` text in
`numLit`; the claims under verification never depend on float arithmetic.
Mutual inductives (instead of a nested `List`) keep every function on them
structurally recursive, hence kernel-reducible.
-/

mutual

inductive Json where
  | null : Json
  | bool : Bool → Json
  | int : Int → Json
  | numLit : String → Json
  | str : String → Json
  | arr : JsonList → Json
  | obj : JsonFields → Json
deriving DecidableEq

inductive JsonList where
  | nil : JsonList
  | cons : Json → JsonList → JsonList
deriving DecidableEq

inductive JsonFields where
  | nil : JsonFields
  | cons : String → Json → JsonFields → JsonFields
deriving DecidableEq

end

/-- `d.get(k)` on a Python dict: the value at the first matching key. -/
def getField (fs : JsonFields) (k : String) : Option Json :=
  match fs with
  | .nil => none
  | .cons k₀ v tl => if k₀ = k then some v else getField tl k

/-- `d[k] = v` on a Python dict: replace in place if the key is present
(keeping its position), otherwise append at the end. -/
def setField (fs : JsonFields) (k : String) (v : Json) : JsonFields :=
  match fs with
  | .nil => .cons k v .nil
  | .cons k₀ v₀ tl =>
      if k₀ = k then .cons k₀ v tl else .cons k₀ v₀ (setField tl k v)

/-- The keys of a dict, in insertion order. -/
def keysOf (fs : JsonFields) : List String :=
  match fs with
  | .nil => []
  | .cons k _ tl => k :: keysOf tl

/-- `{k: v for k, v in d.items() if k != "cks"}` from `_calculate_checksum`. -/
def exclCks (fs : JsonFields) : JsonFields :=
  match fs with
  | .nil => .nil
  | .cons k v tl => if k = "cks" then exclCks tl else .cons k v (exclCks tl)

/-! ## Decimal and hexadecimal rendering -/

/-- Digits of `n`, most significant first, accumulated onto `acc`; `fuel`
bounds the recursion (any `fuel > n` is enough). -/
def natReprAux : Nat → Nat → List Char → List Char
  | 0, _, acc => acc
  | fuel + 1, n, acc =>
      let d := Char.ofNat (48 + n % 10)
      if n < 10 then d :: acc else natReprAux fuel (n / 10) (d :: acc)

/-- Decimal rendering of a natural number (Python `str` of a nonneg int). -/
def natRepr (n : Nat) : String := String.mk (natReprAux (n + 1) n [])

/-- Decimal rendering of an integer (Python `str`/`repr` of an int). -/
def intRepr (n : Int) : String :=
  if n < 0 then "-" ++ natRepr n.natAbs else natRepr n.natAbs

/-- Lowercase hex digit. -/
def hexChar (d : Nat) : Char :=
  if d < 10 then Char.ofNat (48 + d) else Char.ofNat (87 + d)

/-! ## `json.dumps`

`pyDumps isep ksep` embeds `json.dumps(obj, separators=(isep, ksep),
ensure_ascii=False)`: strings escape only `"`, `\` and control characters
(短 escapes `\b \t \n \f \r`, otherwise `\u00xx`), non-ASCII text passes
through; dict/list items are joined with `isep`, keys and values with
`ksep`.
-/

/-- Escape one character the way Python's `json.dumps(~, ensure_ascii=False)`
does. -/
def escapeChar (c : Char) : List Char :=
  if c = '"' then ['\\', '"']
  else if c = '\\' then ['\\', '\\']
  else if c = Char.ofNat 8 then ['\\', 'b']
  else if c = Char.ofNat 9 then ['\\', 't']
  else if c = Char.ofNat 10 then ['\\', 'n']
  else if c = Char.ofNat 12 then ['\\', 'f']
  else if c = Char.ofNat 13 then ['\\', 'r']
  else if c.toNat < 32 then
    ['\\', 'u', '0', '0', hexChar (c.toNat / 16), hexChar (c.toNat % 16)]
  else [c]

/-- Escape a character list. -/
def escapeList : List Char → List Char
  | [] => []
  | c :: tl => escapeChar c ++ escapeList tl

/-- A JSON string literal, escaped and quoted. -/
def dumpsStr (s : String) : String :=
  "\"" ++ String.mk (escapeList s.data) ++ "\""

mutual

/-- Serialize one value (`json.dumps` with the given separators). -/
def dumpsVal (isep ksep : String) : Json → String
  | .null => "null"
  | .bool true => "true"
  | .bool false => "false"
  | .int n => intRepr n
  | .numLit s => s
  | .str s => dumpsStr s
  | .arr xs => "[" ++ dumpsArr isep ksep xs ++ "]"
  | .obj fs => "\x7b" ++ dumpsObj isep ksep fs ++ "\x7d"

/-- Serialize array items joined by `isep`. -/
def dumpsArr (isep ksep : String) : JsonList → String
  | .nil => ""
  | .cons x .nil => dumpsVal isep ksep x
  | .cons x (.cons y tl) =>
      dumpsVal isep ksep x ++ isep ++ dumpsArr isep ksep (.cons y tl)

/-- Serialize object members joined by `isep`, key and value by `ksep`. -/
def dumpsObj (isep ksep : String) : JsonFields → String
  | .nil => ""
  | .cons k v .nil => dumpsStr k ++ ksep ++ dumpsVal isep ksep v
  | .cons k v (.cons k₁ v₁ tl) =>
      dumpsStr k ++ ksep ++ dumpsVal isep ksep v ++ isep ++
        dumpsObj isep ksep (.cons k₁ v₁ tl)

end

/-- `json.dumps(x, separators=(',', ':'), ensure_ascii=False)` — the compact
form used by the producer and by `MqttConsumer.mqtt_message`. -/
def dumpsCompact (x : Json) : String := dumpsVal "," ":" x

/-- `json.dumps(x)` with default separators `(', ', ': ')` — used by
`MqttConsumer.receive` and `publish_command`. -/
def dumpsDefault (x : Json) : String := dumpsVal ", " ": " x

/-! ## UTF-8

`utf8Encode` embeds `str.encode("utf-8")`; `utf8Decode` embeds strict
`bytes.decode("utf-8")` (returning `none` where Python raises
`UnicodeDecodeError`): continuation bytes must be `0x80..0xBF`, overlong
encodings, surrogates and code points above `0x10FFFF` are rejected.
-/

/-- Encode one scalar value as UTF-8 bytes. -/
def utf8EncodeChar (c : Char) : List Nat :=
  let n := c.toNat
  if n < 0x80 then [n]
  else if n < 0x800 then [0xC0 + n / 64, 0x80 + n % 64]
  else if n < 0x10000 then
    [0xE0 + n / 4096, 0x80 + n / 64 % 64, 0x80 + n % 64]
  else
    [0xF0 + n / 262144, 0x80 + n / 4096 % 64, 0x80 + n / 64 % 64, 0x80 + n % 64]

/-- `str.encode("utf-8")` on a character list. -/
def utf8Encode : List Char → List Nat
  | [] => []
  | c :: tl => utf8EncodeChar c ++ utf8Encode tl

/-- UTF-8 byte length of a string — `len(s.encode("utf-8"))`. -/
def utf8Length (s : String) : Nat := (utf8Encode s.data).length

/-- Is `b` a UTF-8 continuation byte (`0x80..0xBF`)? -/
def isCont (b : Nat) : Bool := 0x80 ≤ b && b < 0xC0

/-- Strict `bytes.decode("utf-8")`: `none` where Python raises. -/
def utf8Decode : List Nat → Option (List Char)
  | [] => some []
  | b :: tl =>
    if b < 0x80 then (utf8Decode tl).map (Char.ofNat b :: ·)
    else if b < 0xC2 then none
    else if b < 0xE0 then
      match tl with
      | b₁ :: tl₁ =>
          if isCont b₁ then
            (utf8Decode tl₁).map (Char.ofNat ((b - 0xC0) * 64 + (b₁ - 0x80)) :: ·)
          else none
      | _ => none
    else if b < 0xF0 then
      match tl with
      | b₁ :: b₂ :: tl₂ =>
          if isCont b₁ && isCont b₂ then
            let n := (b - 0xE0) * 4096 + (b₁ - 0x80) * 64 + (b₂ - 0x80)
            if n < 0x800 then none
            else if 0xD800 ≤ n && n < 0xE000 then none
            else (utf8Decode tl₂).map (Char.ofNat n :: ·)
          else none
      | _ => none
    else if b < 0xF5 then
      match tl with
      | b₁ :: b₂ :: b₃ :: tl₃ =>
          if isCont b₁ && isCont b₂ && isCont b₃ then
            let n := (b - 0xF0) * 262144 + (b₁ - 0x80) * 4096 +
              (b₂ - 0x80) * 64 + (b₃ - 0x80)
            if n < 0x10000 then none
            else if 0x10FFFF < n then none
            else (utf8Decode tl₃).map (Char.ofNat n :: ·)
          else none
      | _ => none
    else none

/-! ## SHA-256 (`hashlib.sha256(~).hexdigest()`)

An executable SHA-256 over byte lists.  32-bit words are `Nat` values kept
below `2 ^ 32` by explicit `% 4294967296`; the digest is assembled into a
single `Nat` below `2 ^ 256` and rendered as 64 lowercase hex characters,
matching `hexdigest()`.
-/

/-- Right rotation of a 32-bit word. -/
def rotr32 (k x : Nat) : Nat :=
  (x / 2 ^ k + x % 2 ^ k * 2 ^ (32 - k)) % 4294967296

/-- 32-bit exclusive or. -/
def xor32 (a b : Nat) : Nat := (a ^^^ b) % 4294967296

/-- 32-bit conjunction. -/
def and32 (a b : Nat) : Nat := (a &&& b) % 4294967296

/-- 32-bit complement. -/
def not32 (a : Nat) : Nat := 4294967295 - a % 4294967296

/-- 32-bit addition. -/
def add32 (a b : Nat) : Nat := (a + b) % 4294967296

/-- SHA-256 round constants (FIPS 180-4, in decimal). -/
def shaK : List Nat :=
  [1116352408, 1899447441, 3049323471, 3921009573, 961987163, 1508970993,
   2453635748, 2870763221, 3624381080, 310598401, 607225278, 1426881987,
   1925078388, 2162078206, 2614888103, 3248222580, 3835390401, 4022224774,
   264347078, 604807628, 770255983, 1249150122, 1555081692, 1996064986,
   2554220882, 2821834349, 2952996808, 3210313671, 3336571891, 3584528711,
   113926993, 338241895, 666307205, 773529912, 1294757372, 1396182291,
   1695183700, 1986661051, 2177026350, 2456956037, 2730485921, 2820302411,
   3259730800, 3345764771, 3516065817, 3600352804, 4094571909, 275423344,
   430227734, 506948616, 659060556, 883997877, 958139571, 1322822218,
   1537002063, 1747873779, 1955562222, 2024104815, 2227730452, 2361852424,
   2428436474, 2756734187, 3204031479, 3329325298]

/-- The eight 32-bit chaining words of SHA-256. -/
structure ShaState where
  h0 : Nat
  h1 : Nat
  h2 : Nat
  h3 : Nat
  h4 : Nat
  h5 : Nat
  h6 : Nat
  h7 : Nat

/-- SHA-256 initial state (FIPS 180-4, in decimal). -/
def shaInit : ShaState :=
  ⟨1779033703, 3144134277, 1013904242, 2773480762,
   1359893119, 2600822924, 528734635, 1541459225⟩

/-- Message padding: append `0x80`, zeros, and the 64-bit big-endian bit
length, to a multiple of 64 bytes. -/
def shaPad (msg : List Nat) : List Nat :=
  let len := msg.length
  let z := (119 - len % 64) % 64
  let bits := len * 8
  msg ++ [0x80] ++ List.replicate z 0 ++
    [bits / 2 ^ 56 % 256, bits / 2 ^ 48 % 256, bits / 2 ^ 40 % 256,
     bits / 2 ^ 32 % 256, bits / 2 ^ 24 % 256, bits / 2 ^ 16 % 256,
     bits / 2 ^ 8 % 256, bits % 256]

/-- Split into 64-byte chunks (`fuel` bounds the recursion). -/
def shaChunks : Nat → List Nat → List (List Nat)
  | 0, _ => []
  | _, [] => []
  | fuel + 1, l => l.take 64 :: shaChunks fuel (l.drop 64)

/-- The initial 16 schedule words of a chunk (big-endian 4-byte words). -/
def shaW16 (chunk : List Nat) : List Nat :=
  (List.range 16).map fun i =>
    chunk.getD (4 * i) 0 * 16777216 + chunk.getD (4 * i + 1) 0 * 65536 +
      chunk.getD (4 * i + 2) 0 * 256 + chunk.getD (4 * i + 3) 0

/-- Extend the schedule from 16 to 64 words. -/
def shaSchedule (chunk : List Nat) : List Nat :=
  (List.range 48).foldl
    (fun w _ =>
      let n := w.length
      let s0 :=
        xor32 (xor32 (rotr32 7 (w.getD (n - 15) 0)) (rotr32 18 (w.getD (n - 15) 0)))
          (w.getD (n - 15) 0 / 8)
      let s1 :=
        xor32 (xor32 (rotr32 17 (w.getD (n - 2) 0)) (rotr32 19 (w.getD (n - 2) 0)))
          (w.getD (n - 2) 0 / 1024)
      w ++ [add32 (add32 (w.getD (n - 16) 0) s0) (add32 (w.getD (n - 7) 0) s1)])
    (shaW16 chunk)

/-- Compress one 64-byte chunk into the chaining state. -/
def shaCompress (st : ShaState) (chunk : List Nat) : ShaState :=
  let w := shaSchedule chunk
  let r :=
    (List.range 64).foldl
      (fun (v : Nat × Nat × Nat × Nat × Nat × Nat × Nat × Nat) i =>
        let (a, b, c, d, e, f, g, h) := v
        let s1 := xor32 (xor32 (rotr32 6 e) (rotr32 11 e)) (rotr32 25 e)
        let ch := xor32 (and32 e f) (and32 (not32 e) g)
        let t1 := add32 (add32 (add32 h s1) (add32 ch (shaK.getD i 0))) (w.getD i 0)
        let s0 := xor32 (xor32 (rotr32 2 a) (rotr32 13 a)) (rotr32 22 a)
        let mj := xor32 (xor32 (and32 a b) (and32 a c)) (and32 b c)
        let t2 := add32 s0 mj
        (add32 t1 t2, a, b, c, add32 d t1, e, f, g))
      (st.h0, st.h1, st.h2, st.h3, st.h4, st.h5, st.h6, st.h7)
  let (a, b, c, d, e, f, g, h) := r
  ⟨add32 st.h0 a, add32 st.h1 b, add32 st.h2 c, add32 st.h3 d,
   add32 st.h4 e, add32 st.h5 f, add32 st.h6 g, add32 st.h7 h⟩

/-- The digest of a final state as one natural number below `2 ^ 256`. -/
def shaDigestNat (st : ShaState) : Nat :=
  ((((((st.h0 % 4294967296 * 4294967296 + st.h1 % 4294967296) * 4294967296 +
    st.h2 % 4294967296) * 4294967296 + st.h3 % 4294967296) * 4294967296 +
    st.h4 % 4294967296) * 4294967296 + st.h5 % 4294967296) * 4294967296 +
    st.h6 % 4294967296) * 4294967296 + st.h7 % 4294967296

/-- SHA-256 of a byte list, as a natural number below `2 ^ 256`. -/
def sha256Nat (msg : List Nat) : Nat :=
  let padded := shaPad msg
  shaDigestNat ((shaChunks padded.length padded).foldl shaCompress shaInit)

/-- Fixed-width lowercase hex rendering, most significant digit first. -/
def toHexFixed (width n : Nat) : String :=
  String.mk ((List.range width).map fun i => hexChar (n / 16 ^ (width - 1 - i) % 16))

/-- `hashlib.sha256(bytes).hexdigest()`. -/
def sha256Hex (msg : List Nat) : String := toHexFixed 64 (sha256Nat msg)

/-! ## `json.loads`

An executable parser for the JSON grammar accepted by Python's `json.loads`
(strict mode): double-quoted strings with the standard escapes, objects with
insertion-ordered keys (a duplicate key overwrites the value in place, as a
Python dict does), arrays, `true`/`false`/`null`, and numbers — integer
literals become `Json.int`, literals with a fraction or exponent (and the
Python extensions `NaN`/`Infinity`/`-Infinity`) become `Json.numLit` carrying
their text.  `none` is returned where `json.loads` raises.  One deliberate
deviation: `\uXXXX` escapes denoting lone surrogates (which Python lets
through as unpaired surrogate characters) are rejected, since Lean strings
cannot carry them; no claim exercises that corner.  Recursion is bounded by
a character-count fuel, keeping everything structurally recursive.
-/

/-- Skip JSON whitespace (space, tab, newline, carriage return). -/
def skipWs : List Char → List Char
  | [] => []
  | c :: tl =>
      if c = ' ' || c = '\t' || c = '\n' || c = '\r' then skipWs tl else c :: tl

/-- Value of one hex digit, if any. -/
def hexVal (c : Char) : Option Nat :=
  if '0' ≤ c && c ≤ '9' then some (c.toNat - 48)
  else if 'a' ≤ c && c ≤ 'f' then some (c.toNat - 87)
  else if 'A' ≤ c && c ≤ 'F' then some (c.toNat - 70)
  else none

/-- Read exactly four hex digits. -/
def parseHex4 : List Char → Option (Nat × List Char)
  | c₀ :: c₁ :: c₂ :: c₃ :: tl =>
      match hexVal c₀, hexVal c₁, hexVal c₂, hexVal c₃ with
      | some d₀, some d₁, some d₂, some d₃ =>
          some (d₀ * 4096 + d₁ * 256 + d₂ * 16 + d₃, tl)
      | _, _, _, _ => none
  | _ => none

/-- Body of a JSON string literal (after the opening quote), up to and
including the closing quote. -/
def parseStringBody : Nat → List Char → Option (List Char × List Char)
  | 0, _ => none
  | fuel + 1, cs =>
    match cs with
    | [] => none
    | c :: tl =>
      if c = '"' then some ([], tl)
      else if c = '\\' then
        match tl with
        | [] => none
        | e :: tl₁ =>
          if e = '"' then (parseStringBody fuel tl₁).map fun (s, r) => ('"' :: s, r)
          else if e = '\\' then (parseStringBody fuel tl₁).map fun (s, r) => ('\\' :: s, r)
          else if e = '/' then (parseStringBody fuel tl₁).map fun (s, r) => ('/' :: s, r)
          else if e = 'b' then (parseStringBody fuel tl₁).map fun (s, r) => (Char.ofNat 8 :: s, r)
          else if e = 'f' then (parseStringBody fuel tl₁).map fun (s, r) => (Char.ofNat 12 :: s, r)
          else if e = 'n' then (parseStringBody fuel tl₁).map fun (s, r) => (Char.ofNat 10 :: s, r)
          else if e = 'r' then (parseStringBody fuel tl₁).map fun (s, r) => (Char.ofNat 13 :: s, r)
          else if e = 't' then (parseStringBody fuel tl₁).map fun (s, r) => (Char.ofNat 9 :: s, r)
          else if e = 'u' then
            match parseHex4 tl₁ with
            | none => none
            | some (n, tl₂) =>
              if 0xD800 ≤ n && n < 0xDC00 then
                match tl₂ with
                | u :: v :: tl₃ =>
                  if u = '\\' && v = 'u' then
                    match parseHex4 tl₃ with
                    | some (n₂, tl₄) =>
                      if 0xDC00 ≤ n₂ && n₂ < 0xE000 then
                        (parseStringBody fuel tl₄).map fun (s, r) =>
                          (Char.ofNat (0x10000 + (n - 0xD800) * 1024 + (n₂ - 0xDC00)) :: s, r)
                      else none
                    | none => none
                  else none
                | _ => none
              else if 0xDC00 ≤ n && n < 0xE000 then none
              else (parseStringBody fuel tl₂).map fun (s, r) => (Char.ofNat n :: s, r)
          else none
      else if c.toNat < 32 then none
      else (parseStringBody fuel tl).map fun (s, r) => (c :: s, r)

/-- Split a leading run of decimal digits. -/
def takeDigits : List Char → List Char × List Char
  | [] => ([], [])
  | c :: tl =>
      if '0' ≤ c && c ≤ '9' then
        let (ds, r) := takeDigits tl
        (c :: ds, r)
      else ([], c :: tl)

/-- Natural-number value of a digit list (most significant first). -/
def digitsToNat : List Char → Nat
  | [] => 0
  | ds => ds.foldl (fun acc c => acc * 10 + (c.toNat - 48)) 0

/-- A JSON number literal: `Json.int` when it is a pure integer literal,
`Json.numLit` (the literal text, as Python would hold a float) otherwise. -/
def parseNumber (cs : List Char) : Option (Json × List Char) :=
  let (neg, cs₁) := match cs with
    | '-' :: tl => (true, tl)
    | _ => (false, cs)
  match cs₁ with
  | [] => none
  | c :: _ =>
    if !('0' ≤ c && c ≤ '9') then none
    else
      let (ds, r₁) := takeDigits cs₁
      if ds.length > 1 && ds.headD '0' = '0' then none
      else
        let (frac, r₂) := match r₁ with
          | '.' :: tl =>
              let (fs, r) := takeDigits tl
              if fs = [] then (none, r₁) else (some ('.' :: fs), r)
          | _ => (none, r₁)
        if frac = none ∧ r₂ ≠ r₁ then none
        else
          let (ex, r₃) := match r₂ with
            | e :: tl =>
              if e = 'e' || e = 'E' then
                let (sgn, tl₁) := match tl with
                  | s :: tl₂ => if s = '+' || s = '-' then ([s], tl₂) else ([], tl)
                  | [] => ([], tl)
                let (es, r) := takeDigits tl₁
                if es = [] then (none, r₂) else (some (e :: (sgn ++ es)), r)
              else (none, r₂)
            | [] => (none, r₂)
          match frac, ex with
          | none, none =>
              let v : Int := Int.ofNat (digitsToNat ds)
              some (.int (if neg then -v else v), r₃)
          | _, _ =>
              let text := (if neg then ['-'] else []) ++ ds ++
                frac.getD [] ++ ex.getD []
              some (.numLit (String.mk text), r₃)

/-- Append to the end of a `JsonList`. -/
def jsonListSnoc (xs : JsonList) (v : Json) : JsonList :=
  match xs with
  | .nil => .cons v .nil
  | .cons h tl => .cons h (jsonListSnoc tl v)

mutual

/-- Parse one JSON value (leading whitespace allowed). -/
def parseValue : Nat → List Char → Option (Json × List Char)
  | 0, _ => none
  | fuel + 1, cs =>
    match skipWs cs with
    | [] => none
    | c :: rest =>
      if c = '"' then
        (parseStringBody (rest.length + 1) rest).map fun (s, r) => (.str (String.mk s), r)
      else if c = '\x7b' then parseObjBody fuel rest
      else if c = '[' then parseArrBody fuel rest
      else
        match c :: rest with
        | 't' :: 'r' :: 'u' :: 'e' :: r => some (.bool true, r)
        | 'f' :: 'a' :: 'l' :: 's' :: 'e' :: r => some (.bool false, r)
        | 'n' :: 'u' :: 'l' :: 'l' :: r => some (.null, r)
        | 'N' :: 'a' :: 'N' :: r => some (.numLit "nan", r)
        | 'I' :: 'n' :: 'f' :: 'i' :: 'n' :: 'i' :: 't' :: 'y' :: r => some (.numLit "inf", r)
        | '-' :: 'I' :: 'n' :: 'f' :: 'i' :: 'n' :: 'i' :: 't' :: 'y' :: r =>
            some (.numLit "-inf", r)
        | l => parseNumber l

/-- Parse an object body (after the opening brace). -/
def parseObjBody : Nat → List Char → Option (Json × List Char)
  | 0, _ => none
  | fuel + 1, cs =>
    match skipWs cs with
    | '\x7d' :: r => some (.obj .nil, r)
    | l => parseMembers fuel l .nil

/-- Parse object members (`"key": value`, comma separated) into `acc`. -/
def parseMembers : Nat → List Char → JsonFields → Option (Json × List Char)
  | 0, _, _ => none
  | fuel + 1, cs, acc =>
    match cs with
    | '"' :: rest =>
      match parseStringBody (rest.length + 1) rest with
      | none => none
      | some (k, r₁) =>
        match skipWs r₁ with
        | ':' :: r₂ =>
          match parseValue fuel r₂ with
          | none => none
          | some (v, r₃) =>
            let acc₁ := setField acc (String.mk k) v
            match skipWs r₃ with
            | ',' :: r₄ => parseMembers fuel (skipWs r₄) acc₁
            | '\x7d' :: r₄ => some (.obj acc₁, r₄)
            | _ => none
        | _ => none
    | _ => none

/-- Parse an array body (after the opening bracket). -/
def parseArrBody : Nat → List Char → Option (Json × List Char)
  | 0, _ => none
  | fuel + 1, cs =>
    match skipWs cs with
    | ']' :: r => some (.arr .nil, r)
    | l => parseItems fuel l .nil

/-- Parse array items (comma separated) into `acc`. -/
def parseItems : Nat → List Char → JsonList → Option (Json × List Char)
  | 0, _, _ => none
  | fuel + 1, cs, acc =>
    match parseValue fuel cs with
    | none => none
    | some (v, r₁) =>
      let acc₁ := jsonListSnoc acc v
      match skipWs r₁ with
      | ',' :: r₂ => parseItems fuel r₂ acc₁
      | ']' :: r₂ => some (.arr acc₁, r₂)
      | _ => none

end

/-- `json.loads(s)` — `none` where Python raises (`JSONDecodeError`). -/
def jsonParse (s : String) : Option Json :=
  match parseValue (2 * s.data.length + 2) s.data with
  | some (v, rest) => if skipWs rest = [] then some v else none
  | none => none

/-! ## The code→label tables of `consumers.py` -/

/-- `f"~:02d"` formatting of a nonnegative offset. -/
def pad2 (n : Int) : String :=
  if n < 10 then "0" ++ intRepr n else intRepr n

/-- The `SOURCE_MAP` dict of `consumers.py`: `0` and `1` fixed, then the
three comprehension ranges `10..42 → POLOLU_(i-10)`, `50..70 →
CRAZYFLIE_(i-50)`, `80..100 → MAXARM_(i-80)`; `none` for a key absent from
the dict. -/
def SOURCE_MAP (i : Int) : Option String :=
  if i = 0 then some "ROBOTAT_SERVER"
  else if i = 1 then some "USER_PC"
  else if 10 ≤ i ∧ i ≤ 42 then some ("POLOLU_" ++ pad2 (i - 10))
  else if 50 ≤ i ∧ i ≤ 70 then some ("CRAZYFLIE_" ++ pad2 (i - 50))
  else if 80 ≤ i ∧ i ≤ 100 then some ("MAXARM_" ++ pad2 (i - 80))
  else none

/-- The `PACKET_TYPE_MAP` dict of `consumers.py`. -/
def PACKET_TYPE_MAP (i : Int) : Option String :=
  if i = 0 then some "DATA"
  else if i = 1 then some "COMMAND"
  else if i = 2 then some "MOCAP"
  else none

/-- The `PACKET_ID_MAP` dict of `consumers.py`. -/
def PACKET_ID_MAP (i : Int) : Option String :=
  if i = 0 then some "STATE"
  else if i = 1 then some "SENSOR"
  else if i = 2 then some "MESSAGE"
  else if i = 10 then some "FORCE_STOP"
  else if i = 11 then some "FORWARD"
  else if i = 12 then some "BACKWARD"
  else if i = 13 then some "LEFT"
  else if i = 14 then some "RIGHT"
  else none

/-- Can the value be a dict-membership probe (`v in SOME_MAP`) without
raising?  Python lists and dicts are unhashable — `in` raises `TypeError`
on them. -/
def hashableJson : Json → Bool
  | .arr _ => false
  | .obj _ => false
  | _ => true

/-- The integer key a hashable value hits in an int-keyed dict: ints
themselves, and Python bools (`True == 1`, `False == 0`).  Strings and
`None` never equal an int key.  (A `float` equal to an int key would also
hit in Python; floats are carried here only as literal text, and no claim
exercises float-keyed lookups.) -/
def intKey : Json → Option Int
  | .int n => some n
  | .bool b => some (if b then 1 else 0)
  | _ => none

/-! ## Timestamp formatting

`datetime.utcfromtimestamp(n).strftime("%Y-%m-%d %H:%M:%S")` for an integer
number of UNIX seconds, via the proleptic-Gregorian civil-from-days
computation.  `utcfromtimestamp` raises (`OverflowError`/`ValueError`)
outside datetime's year range `1..9999`, i.e. outside
`-62135596800 ≤ n ≤ 253402300799`.
-/

/-- Civil date `(year, month, day)` from days since 1970-01-01. -/
def civilFromDays (z₀ : Int) : Int × Int × Int :=
  let z := z₀ + 719468
  let era := Int.ediv z 146097
  let doe := z - era * 146097
  let yoe := Int.ediv (doe - Int.ediv doe 1460 + Int.ediv doe 36524 - Int.ediv doe 146096) 365
  let y := yoe + era * 400
  let doy := doe - (365 * yoe + Int.ediv yoe 4 - Int.ediv yoe 100)
  let mp := Int.ediv (5 * doy + 2) 153
  let d := doy - Int.ediv (153 * mp + 2) 5 + 1
  let m := if mp < 10 then mp + 3 else mp - 9
  (if m ≤ 2 then y + 1 else y, m, d)

/-- `%Y` zero-pads the year to four digits. -/
def pad4 (n : Int) : String :=
  if n < 10 then "000" ++ intRepr n
  else if n < 100 then "00" ++ intRepr n
  else if n < 1000 then "0" ++ intRepr n
  else intRepr n

/-- `datetime.utcfromtimestamp(n).strftime("%Y-%m-%d %H:%M:%S")` for an
in-range integer `n`. -/
def formatUtcTimestamp (n : Int) : String :=
  let days := Int.ediv n 86400
  let secs := Int.emod n 86400
  let c := civilFromDays days
  pad4 c.1 ++ "-" ++ pad2 c.2.1 ++ "-" ++ pad2 c.2.2 ++ " " ++
    pad2 (Int.ediv secs 3600) ++ ":" ++ pad2 (Int.emod (Int.ediv secs 60) 60) ++
    ":" ++ pad2 (Int.emod secs 60)

/-- The timestamps `datetime.utcfromtimestamp` accepts (years 1..9999). -/
def inUtcRange (n : Int) : Prop := -62135596800 ≤ n ∧ n ≤ 253402300799

instance (n : Int) : Decidable (inUtcRange n) := by
  unfold inUtcRange; infer_instance

/-- Does `datetime.utcfromtimestamp(pts)` succeed, and on what integer?
Ints must be in datetime's range; Python bools are numbers (`True` is `1`);
strings, `None`, lists and dicts raise `TypeError` (caught by the code's
`except`).  Float values are carried only as literal text and are treated
as the fallback branch; no claim exercises a float `pts`. -/
def pyUtcOk : Json → Option Int
  | .int n => if inUtcRange n then some n else none
  | .bool b => some (if b then 1 else 0)
  | _ => none

/-- Python `str()` of a value, as used by the `str(pts)` fallback: `None`
renders as `"None"`, bools as `"True"`/`"False"`, ints decimally, a string
as itself, a float as its literal text.  For lists and dicts (`repr` with
single-quoted strings in Python) this returns the JSON rendering instead —
an approximation documented here and exercised by no claim. -/
def pyStr : Json → String
  | .null => "None"
  | .bool true => "True"
  | .bool false => "False"
  | .int n => intRepr n
  | .numLit s => s
  | .str s => s
  | .arr xs => dumpsDefault (.arr xs)
  | .obj fs => dumpsDefault (.obj fs)

/-! ## `MqttConsumer.mqtt_message` (consumers.py, lines 142–200)

The per-event handler: decode the payload with a raw fallback, read `src`,
`ptp`, `pid`, `pts`, `cks` off the decoded dict, translate the three code
fields through the tables, replace `pts` by its formatted form (or `str`
fallback), truncate an over-long checksum for display, wrap and serialize
compactly.  A `none` result models an uncaught exception (`.get` on a
non-dict payload, or `in SOURCE_MAP` on an unhashable value), in which case
nothing is sent.
-/

/-- `json.loads` with the raw fallback of `mqtt_message`: malformed JSON
degrades to `{"raw": payload}`; a well-formed non-dict payload is `none`
because the subsequent `.get` raises `AttributeError`. -/
def decodeBridgePayload (raw : String) : Option JsonFields :=
  match jsonParse raw with
  | some (.obj fs) => some fs
  | some _ => none
  | none => some (.cons "raw" (.str raw) .nil)

/-- One `if v in MAP: payload[key] = MAP[v]` translation, for the value `v`
read off the payload before any mutation. -/
def applyMapAt (fs : JsonFields) (key : String) (v : Json)
    (m : Int → Option String) : JsonFields :=
  match (intKey v).bind m with
  | some lbl => setField fs key (.str lbl)
  | none => fs

/-- The three `if code in MAP: payload[k] = MAP[code]` translations, on the
`src`/`ptp`/`pid` values read before any mutation (as the code reads them);
`none` models the `TypeError` an unhashable probe value raises. -/
def translateCodes (fs : JsonFields) : Option JsonFields :=
  let src := (getField fs "src").getD .null
  let ptp := (getField fs "ptp").getD .null
  let pid := (getField fs "pid").getD .null
  if hashableJson src && hashableJson ptp && hashableJson pid then
    some (applyMapAt (applyMapAt (applyMapAt fs "src" src SOURCE_MAP)
      "ptp" ptp PACKET_TYPE_MAP) "pid" pid PACKET_ID_MAP)
  else none

/-- The `try: utcfromtimestamp ... except: str(pts)` step's value. -/
def formatPtsValue (pts : Json) : Json :=
  match pyUtcOk pts with
  | some n => .str (formatUtcTimestamp n)
  | none => .str (pyStr pts)

/-- `f"{cks[:8]}…{cks[-4:]}"` — first 8 characters, ellipsis, last 4. -/
def truncateCks (s : String) : String :=
  String.mk (s.data.take 8) ++ "…" ++ String.mk (s.data.drop (s.data.length - 4))

/-- The display-truncation step: only a `str` checksum longer than 12
characters is replaced. -/
def truncateCksStep (fs : JsonFields) (cks : Json) : JsonFields :=
  match cks with
  | .str s => if 12 < s.data.length then setField fs "cks" (.str (truncateCks s)) else fs
  | _ => fs

/-- The full field transformation of `mqtt_message` on one payload: decode
with raw fallback; read `pts` and `cks` off the decoded dict (defaults
`None` and `""`, as `.get` supplies); translate the code fields; overwrite
`pts` with its formatted form; truncate an over-long string checksum. -/
def processPacketFields (raw : String) : Option JsonFields :=
  (decodeBridgePayload raw).bind fun fs =>
    (translateCodes fs).map fun fs₁ =>
      truncateCksStep (setField fs₁ "pts" (formatPtsValue ((getField fs "pts").getD .null)))
        ((getField fs "cks").getD (.str ""))

/-- `MqttConsumer.mqtt_message`: the compact-JSON text sent to the viewer
session for one broker event, `none` when an exception escapes and nothing
is sent. -/
def mqtt_message (topic raw : String) : Option String :=
  (processPacketFields raw).map fun fs =>
    dumpsCompact (.obj (.cons "type" (.str "mqtt_message")
      (.cons "topic" (.str topic) (.cons "packet" (.obj fs) .nil))))

/-! ## Topic registry and `MqttConsumer.receive` -/

/-- `detected_topics.add(t)` — the registry is the mathematical set of
recorded topics; the embedding keeps first-seen order and deduplicates,
which is indistinguishable from Python's `set` once sorted for output. -/
def recordTopic (topics : List String) (t : String) : List String :=
  if t ∈ topics then topics else topics ++ [t]

/-- Code-point lexicographic `≤` on character lists — exactly Python's
string comparison. -/
def lexLeChars : List Char → List Char → Bool
  | [], _ => true
  | _ :: _, [] => false
  | a :: as, b :: bs =>
      if a.toNat < b.toNat then true
      else if b.toNat < a.toNat then false
      else lexLeChars as bs

/-- Python's `s₁ <= s₂` on strings: lexicographic by code point. -/
def pyStrLe (a b : String) : Bool := lexLeChars a.data b.data

/-- `sorted(list(detected_topics))` — Python sorts strings lexicographically
by code point. -/
def sortedTopics (topics : List String) : List String :=
  List.insertionSort (fun a b => pyStrLe a b = true) topics

/-- A string list as a JSON array. -/
def strListToJsonList : List String → JsonList
  | [] => .nil
  | s :: tl => .cons (.str s) (strListToJsonList tl)

/-- The `topics_list` response text `receive` sends (default separators). -/
def topicsListResponse (topics : List String) : String :=
  dumpsDefault (.obj (.cons "type" (.str "topics_list")
    (.cons "topics" (.arr (strListToJsonList (sortedTopics topics))) .nil)))

/-- `MqttConsumer.receive`: `Except.error ()` models an uncaught exception
(`json.loads` failure, or `.get` on a non-dict message); `.ok (some r)` is a
response sent to the requesting session only; `.ok none` is the
logged-and-ignored unknown-action branch. -/
def wsReceive (topics : List String) (textData : String) : Except Unit (Option String) :=
  match jsonParse textData with
  | none => .error ()
  | some (.obj fs) =>
      if getField fs "action" = some (.str "list_topics") then
        .ok (some (topicsListResponse topics))
      else .ok none
  | some _ => .error ()

/-! ## `on_message` (mqtt_client.py, lines 96–148)

The broker callback decodes the payload bytes, records the topic, and
forwards `(topic, payload-text)` to the `mqtt_logs` group.  The whole body
sits in a `try/except`, so the callback itself never raises — but a
`UnicodeDecodeError` happens *before* `detected_topics.add`, so a
non-UTF-8 payload is dropped with the topic unrecorded.
-/

/-- `on_message`: new registry and the group event forwarded, if any. -/
def on_message (topics : List String) (topic : String) (payload : List Nat) :
    List String × Option (String × String) :=
  match utf8Decode payload with
  | none => (topics, none)
  | some cs => (recordTopic topics topic, some (topic, String.mk cs))

/-! ## `publish_command` and `enviar_comando` -/

/-- The fixed command topic of `mqtt_client.py`. -/
def COMMAND_TOPIC : String := "pololu01/cmd"

/-- The broker-client state `publish_command` consults:
`mqtt_client_instance is None` iff `started = false`. -/
structure BrokerState where
  started : Bool

/-- `publish_command(packet)`: the messages that reach the broker.  With no
client instance it logs and returns (nothing published); otherwise it
publishes `json.dumps(packet)` (default separators) on the command topic.
Its own `try/except` swallows any publish failure, so it never raises. -/
def publish_command (st : BrokerState) (packet : Json) : List (String × String) :=
  if st.started then [(COMMAND_TOPIC, dumpsDefault packet)] else []

/-- The 400 body `{'error': 'Formato de paquete inválido o falta campo pid.'}`. -/
def invalidPacketResponse : Json :=
  .obj (.cons "error" (.str "Formato de paquete inválido o falta campo pid.") .nil)

/-- The 200 body `{'status': 'ok', 'mensaje': 'Comando MQTT publicado exitosamente.'}`. -/
def okResponse : Json :=
  .obj (.cons "status" (.str "ok")
    (.cons "mensaje" (.str "Comando MQTT publicado exitosamente.") .nil))

/-- `enviar_comando` (views.py, lines 260–274): the `(status, body)` HTTP
response and the list of messages published to the broker. -/
def enviar_comando (st : BrokerState) (body : Json) : (Nat × Json) × List (String × String) :=
  match body with
  | .obj fs =>
      if (getField fs "pid").isSome then ((200, okResponse), publish_command st body)
      else ((400, invalidPacketResponse), [])
  | _ => ((400, invalidPacketResponse), [])

/-! ## Producer: `_calculate_checksum`, `verify`, `on_rigid_body` -/

/-- The checksum digest of a packet as a natural number: SHA-256 of the
compact JSON serialization with the `cks` field excluded. -/
def checksumNat (fs : JsonFields) : Nat :=
  sha256Nat (utf8Encode (dumpsCompact (.obj (exclCks fs))).data)

/-- `_calculate_checksum` (publisher_MQTT_final.py, lines 230–238): SHA-256
hex digest of the compact JSON serialization of the packet with the `cks`
field excluded. -/
def _calculate_checksum (fs : JsonFields) : String := toHexFixed 64 (checksumNat fs)

/-- Modelled from the spec: `verify(packet)` is described in §4.1 of the
spec ("recompute checksum over all fields except `cks` and compare
equality") but implemented nowhere under `src/` — the repository computes
checksums and never verifies them. -/
def verify (fs : JsonFields) : Bool :=
  match getField fs "cks" with
  | some (.str c) => c = _calculate_checksum fs
  | _ => false

/-- The `pose_payload` dict built by `on_rigid_body`; the seven float
components are carried as their JSON/`repr` texts. -/
def posePayload (px py pz qx qy qz qw : String) : Json :=
  .obj (.cons "pose" (.obj
    (.cons "position" (.obj (.cons "x" (.numLit px)
      (.cons "y" (.numLit py) (.cons "z" (.numLit pz) .nil))))
    (.cons "rotation" (.obj (.cons "qx" (.numLit qx)
      (.cons "qy" (.numLit qy) (.cons "qz" (.numLit qz)
        (.cons "qw" (.numLit qw) .nil)))))
      .nil))) .nil)

/-- `on_rigid_body` (publisher_MQTT_final.py, lines 282–329): the packet
dict as published.  `srcVal` is `CURRENT_SOURCE.value`, `tsRepr` the text
of the float `datetime.utcnow().timestamp()`, `id` the rigid-body id, and
the seven strings the float components of position and rotation.  `ptp` is
`PacketType.MOCAP.value = 2`; `psb` is the UTF-8 byte length of the compact
serialization of `pld`; `cks` is first `None`, then overwritten in place by
`_calculate_checksum`. -/
def on_rigid_body (srcVal : Int) (tsRepr : String) (id : Int)
    (px py pz qx qy qz qw : String) : JsonFields :=
  let pld := posePayload px py pz qx qy qz qw
  let psb := utf8Length (dumpsCompact pld)
  let packet : JsonFields :=
    .cons "src" (.int srcVal) (.cons "pts" (.numLit tsRepr)
      (.cons "ptp" (.int 2) (.cons "pid" (.int id)
        (.cons "psb" (.int psb) (.cons "pld" pld
          (.cons "cks" .null .nil))))))
  setField packet "cks" (.str (_calculate_checksum packet))

/-! ## The claim properties under dispute

Each `Prop` below states one spec claim exactly as written, over the
embedded operations, so that its failure on the code can be proved as a
closed negation.
-/

/-- Does `enviar_comando` accept the body: a mapping with a `pid` key? -/
def commandShapeOk : Json → Bool
  | .obj fs => (getField fs "pid").isSome
  | _ => false

/-- Claim C1 as stated: invalid bodies are rejected with nothing published,
and on valid bodies the success acknowledgment (HTTP 200) reflects whether
the publish itself succeeded (i.e. reached the broker), for every broker
state. -/
def commandAckClaim : Prop :=
  ∀ (st : BrokerState) (body : Json),
    (commandShapeOk body = false →
      (enviar_comando st body).1.1 ≠ 200 ∧ (enviar_comando st body).2 = []) ∧
    (commandShapeOk body = true →
      ((enviar_comando st body).1.1 = 200 ↔
        (enviar_comando st body).2 = [(COMMAND_TOPIC, dumpsDefault body)]))

/-- Claim C2 as stated: the checksum round-trips (`verify` holds after
setting `cks`), and mutating any field other than `cks` after checksumming
makes `verify` return false. -/
def checksumClaim : Prop :=
  (∀ fs : JsonFields, getField fs "cks" = none →
    verify (setField fs "cks" (.str (_calculate_checksum fs))) = true) ∧
  (∀ (fs : JsonFields) (k : String) (v' : Json),
    getField fs "cks" = none → k ≠ "cks" →
    (∃ v₀, getField fs k = some v₀ ∧ v' ≠ v₀) →
    verify (setField (setField fs "cks" (.str (_calculate_checksum fs))) k v') = false)

/-- Claim C3 as stated: a non-JSON viewer message is logged and dropped
without raising, and a valid-JSON message whose `action` is not
`list_topics` is logged and ignored with no response. -/
def receiveDropClaim : Prop :=
  (∀ (ts : List String) (t : String), jsonParse t = none → wsReceive ts t = .ok none) ∧
  (∀ (ts : List String) (t : String) (j : Json), jsonParse t = some j →
    (∀ fs, j = .obj fs → getField fs "action" ≠ some (.str "list_topics")) →
    wsReceive ts t = .ok none)

/-- Claim C4 as stated: for a non-JSON payload the delivered packet carries
exactly the raw original text and no other content. -/
def rawOnlyClaim : Prop :=
  ∀ s : String, jsonParse s = none →
    processPacketFields s = some (.cons "raw" (.str s) .nil)

/-- Claim C5 as stated: the broker-message handler records the topic into
the registry unconditionally, including for non-UTF-8 payloads. -/
def topicUnconditionalClaim : Prop :=
  ∀ (ts : List String) (topic : String) (payload : List Nat),
    topic ∈ (on_message ts topic payload).1

/-- `n` repetitions of the letter a — an infinite family of pairwise
distinct field values for the pigeonhole argument. -/
def aString (n : Nat) : String := String.mk (List.replicate n 'a')

/-- The single-field packet `{"k": "aa…a"}` used to exhibit a SHA-256
collision non-constructively. -/
def familyPacket (n : Nat) : JsonFields := .cons "k" (.str (aString n)) .nil

/-! # Lemmas on the dict operations -/

theorem getField_setField_self : ∀ (fs : JsonFields) (k : String) (v : Json),
    getField (setField fs k v) k = some v
  | .nil, k, v => by simp [setField, getField]
  | .cons k₀ v₀ tl, k, v => by
      by_cases h : k₀ = k
      · simp [setField, getField, h]
      · simp [setField, getField, h, getField_setField_self tl k v]

theorem getField_setField_ne : ∀ (fs : JsonFields) (k k' : String) (v : Json),
    k ≠ k' → getField (setField fs k v) k' = getField fs k'
  | .nil, k, k', v, h => by simp [setField, getField, h]
  | .cons k₀ v₀ tl, k, k', v, h => by
      by_cases h₀ : k₀ = k
      · subst h₀
        simp [setField, getField, h]
      · simp [setField, getField, h₀, getField_setField_ne tl k k' v h]

theorem exclCks_setField_cks : ∀ (fs : JsonFields) (v : Json),
    exclCks (setField fs "cks" v) = exclCks fs
  | .nil, v => by simp [setField, exclCks]
  | .cons k₀ v₀ tl, v => by
      by_cases h : k₀ = "cks"
      · simp [setField, exclCks, h]
      · simp [setField, exclCks, h, exclCks_setField_cks tl v]

theorem exclCks_setField_ne : ∀ (fs : JsonFields) (k : String) (v : Json),
    k ≠ "cks" → exclCks (setField fs k v) = setField (exclCks fs) k v
  | .nil, k, v, h => by simp [setField, exclCks, h]
  | .cons k₀ v₀ tl, k, v, h => by
      by_cases h₀ : k₀ = k
      · subst h₀
        simp [setField, exclCks, h]
      · by_cases h₁ : k₀ = "cks"
        · simp [setField, exclCks, h₀, h₁, Ne.symm h, exclCks_setField_ne tl k v h]
        · simp [setField, exclCks, h₀, h₁, Ne.symm h, exclCks_setField_ne tl k v h]

/-- Overwriting `cks` does not change the checksum: `_calculate_checksum`
reads only the `cks`-excluded fields. -/
theorem checksum_setField_cks (fs : JsonFields) (v : Json) :
    _calculate_checksum (setField fs "cks" v) = _calculate_checksum fs := by
  simp [_calculate_checksum, checksumNat, exclCks_setField_cks]

/-- `verify` succeeds exactly when the stored string checksum equals the
recomputed one. -/
theorem verify_eq_true_iff (fs : JsonFields) (c : String)
    (h : getField fs "cks" = some (.str c)) :
    verify fs = true ↔ c = _calculate_checksum fs := by
  unfold verify
  rw [h]
  simp

/-- Round trip: stamping a packet with its own checksum makes `verify`
succeed. -/
theorem verify_roundtrip (fs : JsonFields) :
    verify (setField fs "cks" (.str (_calculate_checksum fs))) = true := by
  rw [verify_eq_true_iff _ _ (getField_setField_self fs "cks" _),
    checksum_setField_cks]

/-- After stamping, mutating a non-`cks` field leaves `verify` true exactly
when the mutated packet's digest collides with the original one. -/
theorem verify_mutation_iff (fs : JsonFields) (k : String) (v : Json)
    (hk : k ≠ "cks") :
    verify (setField (setField fs "cks" (.str (_calculate_checksum fs))) k v) = true ↔
      _calculate_checksum (setField fs k v) = _calculate_checksum fs := by
  have hget : getField (setField (setField fs "cks" (.str (_calculate_checksum fs))) k v)
      "cks" = some (.str (_calculate_checksum fs)) := by
    rw [getField_setField_ne _ _ _ _ hk, getField_setField_self]
  have hc : _calculate_checksum (setField (setField fs "cks" (.str (_calculate_checksum fs))) k v)
      = _calculate_checksum (setField fs k v) := by
    simp [_calculate_checksum, checksumNat, exclCks_setField_ne _ _ _ hk,
      exclCks_setField_cks]
  rw [verify_eq_true_iff _ _ hget, hc, eq_comm]

/-! # The SHA-256 digest is bounded, hence collides somewhere -/

theorem mulAddBound {a b k : Nat} (ha : a < 2 ^ k) (hb : b < 2 ^ 32) :
    a * 4294967296 + b < 2 ^ (k + 32) := by
  have h32 : (4294967296 : Nat) = 2 ^ 32 := by norm_num
  calc a * 4294967296 + b < a * 4294967296 + 4294967296 := by omega
    _ = (a + 1) * 4294967296 := by ring
    _ ≤ 2 ^ k * 4294967296 := Nat.mul_le_mul_right _ (by omega)
    _ = 2 ^ (k + 32) := by rw [h32, ← pow_add]

theorem shaDigestNat_lt (st : ShaState) : shaDigestNat st < 2 ^ 256 := by
  have hM : ∀ x : Nat, x % 4294967296 < 2 ^ 32 := fun x => by
    have := Nat.mod_lt x (show 0 < 4294967296 by norm_num)
    omega
  unfold shaDigestNat
  exact mulAddBound (mulAddBound (mulAddBound (mulAddBound (mulAddBound
    (mulAddBound (mulAddBound (hM st.h0) (hM st.h1)) (hM st.h2)) (hM st.h3))
    (hM st.h4)) (hM st.h5)) (hM st.h6)) (hM st.h7)

theorem sha256Nat_lt (msg : List Nat) : sha256Nat msg < 2 ^ 256 :=
  shaDigestNat_lt _

/-- Pigeonhole: among the infinitely many single-field packets
`{"k": "a"*n}` two distinct ones share a SHA-256 digest. -/
theorem checksum_collision : ∃ n₁ n₂ : Nat, n₁ ≠ n₂ ∧
    _calculate_checksum (familyPacket n₁) = _calculate_checksum (familyPacket n₂) := by
  obtain ⟨a, b, hne, he⟩ := Finite.exists_ne_map_eq_of_infinite
    (fun n : Nat => (⟨checksumNat (familyPacket n), sha256Nat_lt _⟩ : Fin (2 ^ 256)))
  refine ⟨a, b, hne, ?_⟩
  have h : checksumNat (familyPacket a) = checksumNat (familyPacket b) :=
    congrArg Fin.val he
  simp [_calculate_checksum, h]

/-- `aString` is injective: distinct repetition counts give distinct
strings. -/
theorem aString_injective {m n : Nat} (h : aString m = aString n) : m = n := by
  have hl := congrArg (fun s : String => s.data.length) h
  simpa [aString] using hl

/-! # Claim C2 — checksum round-trip and mutation detection -/

/-- C2, counterexample: the claim as stated is false — by pigeonhole two
distinct single-field packets share a SHA-256 digest, so mutating the field
of the one into the other escapes `verify`.  The round-trip half of the
claim is true; the universal mutation-detection half is not. -/
theorem c2_checksum_claim_fails : ¬ checksumClaim := by
  rintro ⟨-, hmut⟩
  obtain ⟨n₁, n₂, hne, hcoll⟩ := checksum_collision
  have h1 : getField (familyPacket n₁) "cks" = none := by
    simp [familyPacket, getField]
  have h2 : getField (familyPacket n₁) "k" = some (.str (aString n₁)) := by
    simp [familyPacket, getField]
  have h3 : (Json.str (aString n₂)) ≠ (Json.str (aString n₁)) := by
    intro he
    simp only [Json.str.injEq] at he
    exact hne (aString_injective he).symm
  have h4 := hmut (familyPacket n₁) "k" (.str (aString n₂)) h1 (by decide)
    ⟨.str (aString n₁), h2, h3⟩
  have h5 : setField (familyPacket n₁) "k" (.str (aString n₂)) = familyPacket n₂ := by
    simp [familyPacket, setField]
  have h6 : verify (setField (setField (familyPacket n₁) "cks"
      (.str (_calculate_checksum (familyPacket n₁)))) "k" (.str (aString n₂))) = true :=
    (verify_mutation_iff (familyPacket n₁) "k" (.str (aString n₂)) (by decide)).mpr
      (by rw [h5]; exact hcoll.symm)
  rw [h4] at h6
  exact Bool.noConfusion h6

/-- C2, amended: for every packet with `cks` unset, stamping it with
`_calculate_checksum` makes `verify` succeed and leaves the checksum of the
stamped packet unchanged; and after stamping, mutating any field other than
`cks` makes `verify` fail exactly unless the mutated packet's digest
collides with the original one (such collisions exist, by
`c2_checksum_claim_fails`, but cannot be exhibited concretely). -/
theorem c2_checksum_roundtrip_and_detection :
    ∀ fs : JsonFields, getField fs "cks" = none →
      (verify (setField fs "cks" (.str (_calculate_checksum fs))) = true ∧
        _calculate_checksum (setField fs "cks" (.str (_calculate_checksum fs))) =
          _calculate_checksum fs) ∧
      ∀ (k : String) (v : Json), k ≠ "cks" →
        (verify (setField (setField fs "cks" (.str (_calculate_checksum fs))) k v) = true ↔
          _calculate_checksum (setField fs k v) = _calculate_checksum fs) := by
  intro fs _
  exact ⟨⟨verify_roundtrip fs, checksum_setField_cks fs _⟩,
    fun k v hk => verify_mutation_iff fs k v hk⟩

/-- C2, witness: the amended statement instantiated on the concrete packet
`{"a": 1}`, mutating `a` to `2`. -/
theorem c2_checksum_roundtrip_and_detection_witness :
    getField (.cons "a" (.int 1) .nil) "cks" = none ∧
    (verify (setField (.cons "a" (.int 1) .nil) "cks"
        (.str (_calculate_checksum (.cons "a" (.int 1) .nil)))) = true ∧
      _calculate_checksum (setField (.cons "a" (.int 1) .nil) "cks"
          (.str (_calculate_checksum (.cons "a" (.int 1) .nil)))) =
        _calculate_checksum (.cons "a" (.int 1) .nil)) ∧
    (verify (setField (setField (.cons "a" (.int 1) .nil) "cks"
        (.str (_calculate_checksum (.cons "a" (.int 1) .nil)))) "a" (.int 2)) = true ↔
      _calculate_checksum (setField (.cons "a" (.int 1) .nil) "a" (.int 2)) =
        _calculate_checksum (.cons "a" (.int 1) .nil)) := by
  have h := c2_checksum_roundtrip_and_detection (.cons "a" (.int 1) .nil) (by decide)
  exact ⟨by decide, h.1, h.2 "a" (.int 2) (by decide)⟩

/-! # Claim C1 — command submission and acknowledgment -/

/-- C1, counterexample: with the broker client not yet started, a valid
`pid`-bearing body is acknowledged with HTTP 200 although nothing was
published — the acknowledgment does not reflect the publish outcome. -/
theorem c1_command_ack_claim_fails : ¬ commandAckClaim := by
  intro h
  have h₂ := (h ⟨false⟩ (.obj (.cons "pid" (.int 10) .nil))).2 (by decide)
  have h₃ := h₂.mp (by decide)
  exact absurd h₃ (by decide)

/-- C1, amended: a body that is not a mapping or lacks `pid` is rejected
with the 400 error response and nothing is published; any other body is
forwarded verbatim to `publish_command` on the fixed command topic and the
view answers 200/ok unconditionally — a not-yet-started client (or a failed
publish, which `publish_command` swallows) still yields the success
acknowledgment. -/
theorem c1_command_submission_behavior :
    ∀ (st : BrokerState) (body : Json),
      (commandShapeOk body = false →
        enviar_comando st body = ((400, invalidPacketResponse), [])) ∧
      (commandShapeOk body = true →
        enviar_comando st body = ((200, okResponse),
          if st.started then [(COMMAND_TOPIC, dumpsDefault body)] else [])) := by
  intro st body
  cases body with
  | obj fs =>
      constructor
      · intro h
        simp only [commandShapeOk] at h
        simp [enviar_comando, h]
      · intro h
        simp only [commandShapeOk] at h
        simp [enviar_comando, h, publish_command]
  | null => exact ⟨fun _ => rfl, fun h => by simp [commandShapeOk] at h⟩
  | bool b => exact ⟨fun _ => rfl, fun h => by simp [commandShapeOk] at h⟩
  | int n => exact ⟨fun _ => rfl, fun h => by simp [commandShapeOk] at h⟩
  | numLit s => exact ⟨fun _ => rfl, fun h => by simp [commandShapeOk] at h⟩
  | str s => exact ⟨fun _ => rfl, fun h => by simp [commandShapeOk] at h⟩
  | arr xs => exact ⟨fun _ => rfl, fun h => by simp [commandShapeOk] at h⟩

/-- C1, witness: a `pid`-bearing body against a stopped client is
acknowledged 200 with nothing published; a `pid`-less mapping is rejected
400 with nothing published. -/
theorem c1_command_submission_behavior_witness :
    commandShapeOk (.obj (.cons "pid" (.int 10) .nil)) = true ∧
    enviar_comando ⟨false⟩ (.obj (.cons "pid" (.int 10) .nil)) = ((200, okResponse), []) ∧
    commandShapeOk (.obj (.cons "x" (.int 1) .nil)) = false ∧
    enviar_comando ⟨true⟩ (.obj (.cons "x" (.int 1) .nil)) =
      ((400, invalidPacketResponse), []) := by
  refine ⟨by decide, ?_, by decide, ?_⟩
  · exact (c1_command_submission_behavior ⟨false⟩ _).2 (by decide)
  · exact (c1_command_submission_behavior ⟨true⟩ _).1 (by decide)

/-! # Claim C3 — viewer-session message handling -/

/-- C3, counterexample: a non-JSON viewer message makes `receive` raise
(the `json.loads` call is unguarded), it is not logged-and-dropped. -/
theorem c3_receive_drop_claim_fails : ¬ receiveDropClaim := by
  rintro ⟨h1, -⟩
  have h := h1 [] "\x7bnot json" (by decide)
  have e : wsReceive [] "\x7bnot json" = .error () := by rfl
  rw [e] at h
  exact Except.noConfusion h

/-- C3, amended: a non-JSON viewer message raises an uncaught exception out
of `receive` (as does valid JSON that is not a mapping, where `.get`
raises); a valid-JSON mapping whose `action` is not `list_topics` is logged
and ignored with no response of any kind. -/
theorem c3_receive_behavior :
    (∀ (ts : List String) (t : String), jsonParse t = none →
      wsReceive ts t = .error ()) ∧
    (∀ (ts : List String) (t : String) (fs : JsonFields),
      jsonParse t = some (.obj fs) →
      getField fs "action" ≠ some (.str "list_topics") →
      wsReceive ts t = .ok none) := by
  constructor
  · intro ts t h
    simp [wsReceive, h]
  · intro ts t fs h hne
    simp [wsReceive, h, hne]

/-- C3, witness: `receive` raises on `{not json` and stays silent on
`{"action": "x"}`. -/
theorem c3_receive_behavior_witness :
    wsReceive [] "\x7bnot json" = .error () ∧
    wsReceive [] "\x7b\"action\": \"x\"\x7d" = .ok none := by
  constructor
  · exact c3_receive_behavior.1 [] _ (by decide)
  · exact c3_receive_behavior.2 [] _ (.cons "action" (.str "x") .nil)
      (by decide) (by decide)

/-! # Claim C4 — raw fallback for malformed payloads -/

/-- C4, counterexample: the packet delivered for the non-JSON payload
`{not json` is not `{"raw": ...}` alone — the timestamp-formatting step
appends `"pts": "None"` to it. -/
theorem c4_raw_only_claim_fails : ¬ rawOnlyClaim := by
  intro h
  exact absurd (h "\x7bnot json" (by decide)) (by decide)

/-- C4, amended: for every payload that is not valid JSON, decoding never
raises and yields the fallback `{"raw": <original text>}`, and the packet
delivered to viewers carries the raw original text plus one extra field:
`"pts": "None"`, appended by the unconditional timestamp-formatting step
(`str(None)`). -/
theorem c4_raw_fallback_behavior :
    ∀ s : String, jsonParse s = none →
      decodeBridgePayload s = some (.cons "raw" (.str s) .nil) ∧
      processPacketFields s =
        some (.cons "raw" (.str s) (.cons "pts" (.str "None") .nil)) := by
  intro s h
  refine ⟨by simp [decodeBridgePayload, h], ?_⟩
  unfold processPacketFields decodeBridgePayload
  rw [h]
  rfl

/-- C4, witness: the amended statement at the payload `{not json`. -/
theorem c4_raw_fallback_behavior_witness :
    decodeBridgePayload "\x7bnot json" = some (.cons "raw" (.str "\x7bnot json") .nil) ∧
    processPacketFields "\x7bnot json" =
      some (.cons "raw" (.str "\x7bnot json")
        (.cons "pts" (.str "None") .nil)) :=
  c4_raw_fallback_behavior "\x7bnot json" (by decide)

/-! # Claim C5 — topic recording on broker messages -/

/-- C5, counterexample: a payload that is not valid UTF-8 is dropped before
`detected_topics.add` runs — the topic is not recorded. -/
theorem c5_topic_unconditional_claim_fails : ¬ topicUnconditionalClaim := by
  intro h
  exact absurd (h [] "t" [255]) (by decide)

/-- C5, amended: `on_message` never raises (its body is guarded by
`try/except`); for every UTF-8-decodable payload — valid JSON or not, the
handler does not parse JSON at all, so decode errors degrade to raw
passthrough downstream — the topic is recorded and the raw text forwarded;
but a payload that is not valid UTF-8 is dropped entirely: the topic is
left unrecorded and nothing is forwarded. -/
theorem c5_on_message_behavior :
    (∀ (ts : List String) (topic : String) (payload : List Nat) (cs : List Char),
      utf8Decode payload = some cs →
      on_message ts topic payload = (recordTopic ts topic, some (topic, String.mk cs)) ∧
        topic ∈ recordTopic ts topic) ∧
    (∀ (ts : List String) (topic : String) (payload : List Nat),
      utf8Decode payload = none → on_message ts topic payload = (ts, none)) := by
  constructor
  · intro ts topic payload cs h
    refine ⟨by simp [on_message, h], ?_⟩
    by_cases hm : topic ∈ ts
    · simp [recordTopic, hm]
    · simp [recordTopic, hm]
  · intro ts topic payload h
    simp [on_message, h]

/-- C5, witness: the amended statement at the UTF-8 payload `hi` and the
invalid byte `0xFF`. -/
theorem c5_on_message_behavior_witness :
    (on_message [] "t" [104, 105] = (recordTopic [] "t", some ("t", String.mk ['h', 'i'])) ∧
      "t" ∈ recordTopic [] "t") ∧
    on_message [] "t" [255] = ([], none) := by
  constructor
  · exact c5_on_message_behavior.1 [] "t" [104, 105] ['h', 'i'] (by decide)
  · exact c5_on_message_behavior.2 [] "t" [255] (by decide)

/-! # Lemmas on the `mqtt_message` field pipeline -/

theorem getField_applyMapAt_ne (fs : JsonFields) (key : String) (v : Json)
    (m : Int → Option String) (k : String) (hk : key ≠ k) :
    getField (applyMapAt fs key v m) k = getField fs k := by
  unfold applyMapAt
  split
  · exact getField_setField_ne fs key k _ hk
  · rfl

theorem applyMapAt_none (fs : JsonFields) (key : String) (v : Json)
    (m : Int → Option String) (h : (intKey v).bind m = none) :
    applyMapAt fs key v m = fs := by
  unfold applyMapAt
  rw [h]

/-- A successful translation is exactly the three-step map application. -/
theorem translateCodes_char (fs fs' : JsonFields)
    (ht : translateCodes fs = some fs') :
    fs' = applyMapAt (applyMapAt (applyMapAt fs
      "src" ((getField fs "src").getD .null) SOURCE_MAP)
      "ptp" ((getField fs "ptp").getD .null) PACKET_TYPE_MAP)
      "pid" ((getField fs "pid").getD .null) PACKET_ID_MAP := by
  simp only [translateCodes] at ht
  split at ht
  · exact (Option.some.inj ht).symm
  · exact Option.noConfusion ht

/-- Translation only touches `src`, `ptp` and `pid`. -/
theorem getField_translateCodes_ne (fs fs' : JsonFields) (k : String)
    (h1 : "src" ≠ k) (h2 : "ptp" ≠ k) (h3 : "pid" ≠ k)
    (ht : translateCodes fs = some fs') : getField fs' k = getField fs k := by
  rw [translateCodes_char fs fs' ht, getField_applyMapAt_ne _ _ _ _ _ h3,
    getField_applyMapAt_ne _ _ _ _ _ h2, getField_applyMapAt_ne _ _ _ _ _ h1]

/-- The truncation step only touches `cks`. -/
theorem getField_truncateCksStep_ne (fs : JsonFields) (cks : Json) (k : String)
    (hk : k ≠ "cks") : getField (truncateCksStep fs cks) k = getField fs k := by
  unfold truncateCksStep
  split
  · split
    · exact getField_setField_ne fs "cks" k _ (Ne.symm hk)
    · rfl
  · rfl

/-- A produced output dict comes from a successful translation, with the
`pts` overwrite and display truncation applied on top. -/
theorem processPacketFields_char (raw : String) (fs fs' : JsonFields)
    (hd : decodeBridgePayload raw = some fs)
    (hp : processPacketFields raw = some fs') :
    ∃ fs₁, translateCodes fs = some fs₁ ∧
      fs' = truncateCksStep
        (setField fs₁ "pts" (formatPtsValue ((getField fs "pts").getD .null)))
        ((getField fs "cks").getD (.str "")) := by
  unfold processPacketFields at hp
  rw [hd] at hp
  cases ht : translateCodes fs with
  | none => rw [Option.some_bind, ht] at hp; exact Option.noConfusion hp
  | some fs₁ =>
      rw [Option.some_bind, ht] at hp
      exact ⟨fs₁, rfl, (Option.some.inj hp).symm⟩

/-- The delivered `pts` is always the formatted form of the received one
(with `None` for a missing field). -/
theorem pts_in_output (raw : String) (fs fs' : JsonFields)
    (hd : decodeBridgePayload raw = some fs)
    (hp : processPacketFields raw = some fs') :
    getField fs' "pts" = some (formatPtsValue ((getField fs "pts").getD .null)) := by
  obtain ⟨fs₁, -, rfl⟩ := processPacketFields_char raw fs fs' hd hp
  rw [getField_truncateCksStep_ne _ _ _ (by decide)]
  exact getField_setField_self _ _ _

/-! # Claim C6 — end-to-end delivery and timestamp formatting -/

/-- C6: the end-to-end scenario delivers exactly the expected compact JSON
text; in general an in-range integer `pts` is formatted as the UTC
`YYYY-MM-DD HH:MM:SS` string, a missing `pts` falls back to `"None"` and a
string `pts` to itself, without raising. -/
theorem c6_end_to_end_delivery :
    mqtt_message "pololu01/tel"
        "\x7b\"src\":10,\"ptp\":2,\"pid\":0,\"pts\":1700000000,\"cks\":\"x\"\x7d" =
      some "\x7b\"type\":\"mqtt_message\",\"topic\":\"pololu01/tel\",\"packet\":\x7b\"src\":\"POLOLU_00\",\"ptp\":\"MOCAP\",\"pid\":\"STATE\",\"pts\":\"2023-11-14 22:13:20\",\"cks\":\"x\"\x7d\x7d" ∧
    (∀ (raw : String) (fs fs' : JsonFields) (n : Int),
      decodeBridgePayload raw = some fs → processPacketFields raw = some fs' →
      getField fs "pts" = some (.int n) → inUtcRange n →
      getField fs' "pts" = some (.str (formatUtcTimestamp n))) ∧
    (∀ (raw : String) (fs fs' : JsonFields),
      decodeBridgePayload raw = some fs → processPacketFields raw = some fs' →
      getField fs "pts" = none → getField fs' "pts" = some (.str "None")) ∧
    (∀ (raw : String) (fs fs' : JsonFields) (s : String),
      decodeBridgePayload raw = some fs → processPacketFields raw = some fs' →
      getField fs "pts" = some (.str s) → getField fs' "pts" = some (.str s)) := by
  refine ⟨by decide, ?_, ?_, ?_⟩
  · intro raw fs fs' n hd hp hpts hr
    rw [pts_in_output raw fs fs' hd hp, hpts]
    simp [formatPtsValue, pyUtcOk, hr]
  · intro raw fs fs' hd hp hpts
    rw [pts_in_output raw fs fs' hd hp, hpts]
    rfl
  · intro raw fs fs' s hd hp hpts
    rw [pts_in_output raw fs fs' hd hp, hpts]
    rfl

/-- C6, witness: the three general clauses at concrete payloads
(`{"pts":1700000000}`, `{"a":1}`, `{"pts":"abc"}`). -/
theorem c6_end_to_end_delivery_witness :
    getField (.cons "pts" (.str "2023-11-14 22:13:20") .nil) "pts" =
        some (.str "2023-11-14 22:13:20") ∧
    getField (.cons "a" (.int 1) (.cons "pts" (.str "None") .nil)) "pts" =
        some (.str "None") ∧
    getField (.cons "pts" (.str "abc") .nil) "pts" = some (.str "abc") := by
  refine ⟨?_, ?_, ?_⟩
  · have h := c6_end_to_end_delivery.2.1 "\x7b\"pts\":1700000000\x7d"
      (.cons "pts" (.int 1700000000) .nil)
      (.cons "pts" (.str "2023-11-14 22:13:20") .nil) 1700000000
      (by decide) (by decide) (by decide) (by decide)
    simpa using h
  · exact c6_end_to_end_delivery.2.2.1 "\x7b\"a\":1\x7d"
      (.cons "a" (.int 1) .nil)
      (.cons "a" (.int 1) (.cons "pts" (.str "None") .nil))
      (by decide) (by decide) (by decide)
  · exact c6_end_to_end_delivery.2.2.2 "\x7b\"pts\":\"abc\"\x7d"
      (.cons "pts" (.str "abc") .nil) (.cons "pts" (.str "abc") .nil) "abc"
      (by decide) (by decide) (by decide)

/-! # Claim C7 — source-label translation -/

/-- C7: the `SOURCE_MAP` enumeration is exactly as specified (fixed points,
the three offset ranges, nothing else), and an unmapped `src` code passes
through the pipeline's translation unchanged as the raw integer. -/
theorem c7_source_label_translation :
    SOURCE_MAP 10 = some "POLOLU_00" ∧ SOURCE_MAP 42 = some "POLOLU_32" ∧
    SOURCE_MAP 50 = some "CRAZYFLIE_00" ∧ SOURCE_MAP 100 = some "MAXARM_20" ∧
    SOURCE_MAP 0 = some "ROBOTAT_SERVER" ∧ SOURCE_MAP 1 = some "USER_PC" ∧
    (∀ i : Int, 10 ≤ i → i ≤ 42 → SOURCE_MAP i = some ("POLOLU_" ++ pad2 (i - 10))) ∧
    (∀ i : Int, 50 ≤ i → i ≤ 70 → SOURCE_MAP i = some ("CRAZYFLIE_" ++ pad2 (i - 50))) ∧
    (∀ i : Int, 80 ≤ i → i ≤ 100 → SOURCE_MAP i = some ("MAXARM_" ++ pad2 (i - 80))) ∧
    (∀ i : Int, ¬(i = 0 ∨ i = 1 ∨ (10 ≤ i ∧ i ≤ 42) ∨ (50 ≤ i ∧ i ≤ 70) ∨
      (80 ≤ i ∧ i ≤ 100)) → SOURCE_MAP i = none) ∧
    (∀ (fs fs' : JsonFields) (i : Int), translateCodes fs = some fs' →
      getField fs "src" = some (.int i) → SOURCE_MAP i = none →
      getField fs' "src" = some (.int i)) := by
  refine ⟨by decide, by decide, by decide, by decide, by decide, by decide,
    ?_, ?_, ?_, ?_, ?_⟩
  · intro i h₁ h₂
    unfold SOURCE_MAP
    rw [if_neg (by omega), if_neg (by omega), if_pos ⟨h₁, h₂⟩]
  · intro i h₁ h₂
    unfold SOURCE_MAP
    rw [if_neg (by omega), if_neg (by omega), if_neg (by omega), if_pos ⟨h₁, h₂⟩]
  · intro i h₁ h₂
    unfold SOURCE_MAP
    rw [if_neg (by omega), if_neg (by omega), if_neg (by omega),
      if_neg (by omega), if_pos ⟨h₁, h₂⟩]
  · intro i h
    have h0 : ¬ i = 0 := fun e => h (Or.inl e)
    have h1 : ¬ i = 1 := fun e => h (Or.inr (Or.inl e))
    have h2 : ¬ (10 ≤ i ∧ i ≤ 42) := fun e => h (Or.inr (Or.inr (Or.inl e)))
    have h3 : ¬ (50 ≤ i ∧ i ≤ 70) := fun e => h (Or.inr (Or.inr (Or.inr (Or.inl e))))
    have h4 : ¬ (80 ≤ i ∧ i ≤ 100) := fun e => h (Or.inr (Or.inr (Or.inr (Or.inr e))))
    simp [SOURCE_MAP, h0, h1, h2, h3, h4]
  · intro fs fs' i ht hsrc hmap
    rw [translateCodes_char fs fs' ht, getField_applyMapAt_ne _ _ _ _ _ (by decide),
      getField_applyMapAt_ne _ _ _ _ _ (by decide), hsrc,
      applyMapAt_none _ _ _ _ (by simp [intKey, hmap])]
    exact hsrc

/-- C7, witness: the range clauses at their left endpoints, the
out-of-range clause and the pipeline passthrough at `src = 9999`. -/
theorem c7_source_label_translation_witness :
    SOURCE_MAP 10 = some ("POLOLU_" ++ pad2 (10 - 10)) ∧
    SOURCE_MAP 50 = some ("CRAZYFLIE_" ++ pad2 (50 - 50)) ∧
    SOURCE_MAP 80 = some ("MAXARM_" ++ pad2 (80 - 80)) ∧
    SOURCE_MAP 9999 = none ∧
    getField (.cons "src" (.int 9999) .nil) "src" = some (.int 9999) := by
  refine ⟨?_, ?_, ?_, ?_, ?_⟩
  · exact c7_source_label_translation.2.2.2.2.2.2.1 10 (by decide) (by decide)
  · exact c7_source_label_translation.2.2.2.2.2.2.2.1 50 (by decide) (by decide)
  · exact c7_source_label_translation.2.2.2.2.2.2.2.2.1 80 (by decide) (by decide)
  · exact c7_source_label_translation.2.2.2.2.2.2.2.2.2.1 9999 (by decide)
  · exact c7_source_label_translation.2.2.2.2.2.2.2.2.2.2
      (.cons "src" (.int 9999) .nil) (.cons "src" (.int 9999) .nil) 9999
      (by decide) (by decide) (by decide)

/-! # Claim C8 — checksum display truncation -/

/-- C8: through the pipeline, a string checksum longer than 12 characters
is displayed as its first 8 characters, an ellipsis and its last 4, and a
checksum of length at most 12 is left unchanged; with the concrete 64-hex
instance. -/
theorem c8_checksum_truncation :
    (∀ (raw : String) (fs fs' : JsonFields) (s : String),
      decodeBridgePayload raw = some fs → processPacketFields raw = some fs' →
      getField fs "cks" = some (.str s) →
      getField fs' "cks" =
        some (.str (if 12 < s.data.length then truncateCks s else s))) ∧
    (∀ s : String, 12 < s.data.length →
      (truncateCks s).data = s.data.take 8 ++ '…' :: s.data.drop (s.data.length - 4)) ∧
    (∀ s : String, s.data.length ≤ 12 → ∀ fs, truncateCksStep fs (.str s) = fs) ∧
    truncateCks "e3b0c44298fc1c149afbf4c8996fb92427ae41e4649b934ca495991b7852b855" =
      "e3b0c442…b855" := by
  refine ⟨?_, ?_, ?_, by decide⟩
  · intro raw fs fs' s hd hp hc
    obtain ⟨fs₁, ht, rfl⟩ := processPacketFields_char raw fs fs' hd hp
    rw [hc]
    have hbase : getField (setField fs₁ "pts"
        (formatPtsValue ((getField fs "pts").getD .null))) "cks" = some (.str s) := by
      rw [getField_setField_ne _ _ _ _ (by decide)]
      rw [getField_translateCodes_ne fs fs₁ "cks" (by decide) (by decide) (by decide) ht]
      exact hc
    by_cases hlen : 12 < s.data.length
    · simp only [truncateCksStep, Option.getD_some, if_pos hlen]
      exact getField_setField_self _ _ _
    · simp only [truncateCksStep, Option.getD_some, if_neg hlen]
      exact hbase
  · intro s _
    simp [truncateCks]
  · intro s h fs
    simp only [truncateCksStep]
    rw [if_neg (by omega)]

/-- C8, witness: the pipeline clause on the payload carrying a 64-hex
checksum, the character-level clause on that checksum, and the unchanged
clause on a short one. -/
theorem c8_checksum_truncation_witness :
    getField (.cons "cks"
        (.str "e3b0c442…b855") (.cons "pts" (.str "None") .nil)) "cks" =
      some (.str (if 12 <
        ("e3b0c44298fc1c149afbf4c8996fb92427ae41e4649b934ca495991b7852b855" : String).data.length
        then truncateCks "e3b0c44298fc1c149afbf4c8996fb92427ae41e4649b934ca495991b7852b855"
        else "e3b0c44298fc1c149afbf4c8996fb92427ae41e4649b934ca495991b7852b855")) ∧
    (truncateCks "e3b0c44298fc1c149afbf4c8996fb92427ae41e4649b934ca495991b7852b855").data =
      ("e3b0c44298fc1c149afbf4c8996fb92427ae41e4649b934ca495991b7852b855" : String).data.take 8 ++
        '…' :: ("e3b0c44298fc1c149afbf4c8996fb92427ae41e4649b934ca495991b7852b855" : String).data.drop
          (("e3b0c44298fc1c149afbf4c8996fb92427ae41e4649b934ca495991b7852b855" : String).data.length - 4) ∧
    truncateCksStep .nil (.str "abc") = .nil := by
  refine ⟨?_, ?_, ?_⟩
  · exact c8_checksum_truncation.1
      "\x7b\"cks\":\"e3b0c44298fc1c149afbf4c8996fb92427ae41e4649b934ca495991b7852b855\"\x7d"
      (.cons "cks" (.str "e3b0c44298fc1c149afbf4c8996fb92427ae41e4649b934ca495991b7852b855") .nil)
      (.cons "cks" (.str "e3b0c442…b855") (.cons "pts" (.str "None") .nil))
      "e3b0c44298fc1c149afbf4c8996fb92427ae41e4649b934ca495991b7852b855"
      (by decide) (by decide) (by decide)
  · exact c8_checksum_truncation.2.1
      "e3b0c44298fc1c149afbf4c8996fb92427ae41e4649b934ca495991b7852b855" (by decide)
  · exact c8_checksum_truncation.2.2.1 "abc" (by decide) .nil

/-! # Claim C9 — topic-list request -/

/-- Code-point lexicographic comparison is total. -/
theorem lexLeChars_total : ∀ as bs : List Char,
    lexLeChars as bs = true ∨ lexLeChars bs as = true
  | [], _ => Or.inl rfl
  | _ :: _, [] => Or.inr rfl
  | a :: as, b :: bs => by
      rcases Nat.lt_trichotomy a.toNat b.toNat with h | h | h
      · exact Or.inl (by simp [lexLeChars, h])
      · rcases lexLeChars_total as bs with ih | ih
        · exact Or.inl (by simp [lexLeChars, h, ih])
        · exact Or.inr (by simp [lexLeChars, h, ih])
      · exact Or.inr (by simp [lexLeChars, h])

/-- Code-point lexicographic comparison is transitive. -/
theorem lexLeChars_trans : ∀ as bs cs : List Char, lexLeChars as bs = true →
    lexLeChars bs cs = true → lexLeChars as cs = true
  | [], _, _, _, _ => rfl
  | _ :: _, [], _, h, _ => by simp [lexLeChars] at h
  | _ :: _, _ :: _, [], _, h => by simp [lexLeChars] at h
  | a :: as, b :: bs, c :: cs, h₁, h₂ => by
      rcases Nat.lt_trichotomy a.toNat b.toNat with hab | hab | hab
      · rcases Nat.lt_trichotomy b.toNat c.toNat with hbc | hbc | hbc
        · simp [lexLeChars, Nat.lt_trans hab hbc]
        · simp [lexLeChars, hbc ▸ hab]
        · simp [lexLeChars, Nat.lt_asymm hbc, hbc] at h₂
      · rcases Nat.lt_trichotomy b.toNat c.toNat with hbc | hbc | hbc
        · simp [lexLeChars, hab ▸ hbc]
        · simp only [lexLeChars, hab, hbc] at h₁ h₂ ⊢
          simp only [Nat.lt_irrefl, if_false] at h₁ h₂ ⊢
          exact lexLeChars_trans as bs cs h₁ h₂
        · simp [lexLeChars, Nat.lt_asymm hbc, hbc] at h₂
      · simp [lexLeChars, Nat.lt_asymm hab, hab] at h₁

/-- C9: a `list_topics` request is answered — to the requesting session
only — with the `topics_list` response carrying the lexicographically
sorted, deduplicated registry snapshot; the registry membership is exactly
the recorded topics; and the concrete `mocap/1`, `b`, `mocap/2` scenario
returns `["b", "mocap/1", "mocap/2"]`. -/
theorem c9_list_topics_snapshot :
    (∀ (ts : List String) (t : String) (fs : JsonFields),
      jsonParse t = some (.obj fs) →
      getField fs "action" = some (.str "list_topics") →
      wsReceive ts t = .ok (some (topicsListResponse ts))) ∧
    (∀ ts : List String, (sortedTopics ts).Sorted (fun a b => pyStrLe a b = true) ∧
      (∀ a, a ∈ sortedTopics ts ↔ a ∈ ts) ∧
      (ts.Nodup → (sortedTopics ts).Nodup)) ∧
    (∀ (ts : List String) (t a : String),
      (a ∈ recordTopic ts t ↔ a ∈ ts ∨ a = t) ∧
      (ts.Nodup → (recordTopic ts t).Nodup)) ∧
    ((on_message (on_message (on_message [] "mocap/1" [104]).1 "b" [104]).1
        "mocap/2" [104]).1 = ["mocap/1", "b", "mocap/2"] ∧
      wsReceive ["mocap/1", "b", "mocap/2"] "\x7b\"action\": \"list_topics\"\x7d" =
        .ok (some "\x7b\"type\": \"topics_list\", \"topics\": [\"b\", \"mocap/1\", \"mocap/2\"]\x7d")) := by
  refine ⟨?_, ?_, ?_, by decide, by rfl⟩
  · intro ts t fs h ha
    simp [wsReceive, h, ha]
  · intro ts
    have htot : IsTotal String (fun a b => pyStrLe a b = true) :=
      ⟨fun a b => lexLeChars_total a.data b.data⟩
    have htrans : IsTrans String (fun a b => pyStrLe a b = true) :=
      ⟨fun a b c => lexLeChars_trans a.data b.data c.data⟩
    refine ⟨@List.sorted_insertionSort String _ _ htot htrans ts,
      fun a => (List.perm_insertionSort _ ts).mem_iff, ?_⟩
    exact fun h => (List.perm_insertionSort _ ts).nodup_iff.mpr h
  · intro ts t a
    constructor
    · by_cases ht : t ∈ ts
      · simp only [recordTopic, if_pos ht]
        exact ⟨Or.inl, fun h => h.elim id (fun e => e ▸ ht)⟩
      · simp [recordTopic, if_neg ht]
    · intro h
      by_cases ht : t ∈ ts
      · simpa [recordTopic, if_pos ht] using h
      · simp only [recordTopic, if_neg ht]
        exact List.nodup_append.mpr ⟨h, List.nodup_singleton t, by simpa using ht⟩

/-- C9, witness: the request clause at the concrete registry
`["mocap/1", "b", "mocap/2"]` and request `{"action": "list_topics"}`. -/
theorem c9_list_topics_snapshot_witness :
    wsReceive ["mocap/1", "b", "mocap/2"] "\x7b\"action\": \"list_topics\"\x7d" =
      .ok (some (topicsListResponse ["mocap/1", "b", "mocap/2"])) ∧
    ("b" ∈ sortedTopics ["mocap/1", "b", "mocap/2"] ↔
      "b" ∈ ["mocap/1", "b", "mocap/2"]) ∧
    (["mocap/1", "b"].Nodup → (recordTopic ["mocap/1", "b"] "mocap/2").Nodup) := by
  refine ⟨?_, ?_, ?_⟩
  · exact c9_list_topics_snapshot.1 ["mocap/1", "b", "mocap/2"] _
      (.cons "action" (.str "list_topics") .nil) (by decide) (by decide)
  · exact (c9_list_topics_snapshot.2.1 ["mocap/1", "b", "mocap/2"]).2.1 "b"
  · exact (c9_list_topics_snapshot.2.2.1 ["mocap/1", "b"] "mocap/2" "x").2

/-! # Claim C10 — shape of the produced MOCAP packet -/

/-- C10: every packet built by `on_rigid_body` carries exactly the fields
`src, pts, ptp, pid, psb, pld, cks` in that insertion order, with
`ptp = 2` (MOCAP), `pid` the rigid-body id, `pld` the nested pose object
over the seven float components, `psb` the UTF-8 byte length of the compact
serialization of `pld`, and a string checksum. -/
theorem c10_mocap_packet_shape :
    ∀ (srcVal : Int) (tsRepr : String) (id : Int) (px py pz qx qy qz qw : String),
      keysOf (on_rigid_body srcVal tsRepr id px py pz qx qy qz qw) =
        ["src", "pts", "ptp", "pid", "psb", "pld", "cks"] ∧
      getField (on_rigid_body srcVal tsRepr id px py pz qx qy qz qw) "src" =
        some (.int srcVal) ∧
      getField (on_rigid_body srcVal tsRepr id px py pz qx qy qz qw) "ptp" =
        some (.int 2) ∧
      getField (on_rigid_body srcVal tsRepr id px py pz qx qy qz qw) "pid" =
        some (.int id) ∧
      getField (on_rigid_body srcVal tsRepr id px py pz qx qy qz qw) "pld" =
        some (posePayload px py pz qx qy qz qw) ∧
      getField (on_rigid_body srcVal tsRepr id px py pz qx qy qz qw) "psb" =
        some (.int (utf8Length (dumpsCompact (posePayload px py pz qx qy qz qw)))) ∧
      ∃ c : String,
        getField (on_rigid_body srcVal tsRepr id px py pz qx qy qz qw) "cks" =
          some (.str c) := by
  intro srcVal tsRepr id px py pz qx qy qz qw
  exact ⟨rfl, rfl, rfl, rfl, rfl, rfl, _, rfl⟩

end Robotat
